import Mathlib

/-!
Verification development for the event ticket management script
(`streamlit_pg_09.py`).  The Python source keeps two in-memory tables:
`tickets` and `menu`.  We embed the rows as Lean structures and each
state-changing handler as a pure function on lists of rows.

Machine conventions used throughout:
* pandas dataframes become `List Ticket` / `List MenuRow`;
* `df.at[idx, col] = v` becomes `List.set` at the index;
* nullable columns become `Option _`;
* Python `str.zfill`, `str.strip`, `str.split("-")` and `int(...)` are
  modelled character-by-character below (PEP-515 underscore grouping of
  `int` literals is not modelled; no claim depends on it).
-/

/-- Python `str.strip()`: drop leading and trailing whitespace. -/
def pyStrip (s : String) : String :=
  ⟨((s.data.dropWhile Char.isWhitespace).reverse.dropWhile Char.isWhitespace).reverse⟩

/-- Character-list core of Python `str.zfill(width)`: left-pad with the
character 0 up to `width`, keeping a leading sign in front of the pad. -/
def zfillData (width : Nat) (cs : List Char) : List Char :=
  if width ≤ cs.length then cs
  else
    match cs with
    | [] => List.replicate width '0'
    | c :: rest =>
      if c = '+' ∨ c = '-' then c :: (List.replicate (width - cs.length) '0' ++ rest)
      else List.replicate (width - cs.length) '0' ++ (c :: rest)

/-- Python `str.zfill(width)`. -/
def zfill (width : Nat) (s : String) : String := ⟨zfillData width s.data⟩

/-- Python `series.split("-")`: split on every occurrence of the single
character separator, keeping empty parts. -/
def splitDash : List Char → List (List Char)
  | [] => [[]]
  | c :: rest =>
    match splitDash rest with
    | [] => []
    | h :: t => if c = '-' then [] :: h :: t else (c :: h) :: t

/-- Decimal value of a digit character list (leading zeros allowed). -/
def digitsVal (cs : List Char) : Nat :=
  cs.foldl (fun a c => 10 * a + (c.toNat - 48)) 0

/-- Python `int(part)` for a part produced by `split("-")`: such a part can
never contain the character -, so the result is a natural number.  `int`
itself strips whitespace and accepts one leading +. -/
def pyNat? (s : String) : Option Nat :=
  let cs := (pyStrip s).data
  let cs := match cs with
            | '+' :: rest => rest
            | _ => cs
  if cs ≠ [] ∧ cs.all Char.isDigit then some (digitsVal cs) else none

/-- Python `str(n)` for a natural number, via a fuel-driven digit loop
(`n + 1` units of fuel always suffice). -/
def natDigitsAux : Nat → Nat → List Char → List Char
  | 0, _, acc => acc
  | fuel + 1, n, acc =>
    let d := Char.ofNat (48 + n % 10)
    if n < 10 then d :: acc else natDigitsAux fuel (n / 10) (d :: acc)

/-- Python `str(n)` for a natural number. -/
def natStr (n : Nat) : String := ⟨natDigitsAux (n + 1) n []⟩

/-- `str(tid).zfill(4)`: the canonical 4-digit ticket identifier of the
integer `tid` (series bounds are always nonnegative, see `parseSeries`). -/
def padId (v : Nat) : String := zfill 4 (natStr v)

/-- One row of the `tickets` table, with the columns normalised exactly as
`load_all_data` leaves them (`Ty` stands for the column `Type`, which is a
reserved word in Lean). -/
structure Ticket where
  TicketID : String
  Ty : String
  Category : String
  Admit : Int
  Seq : Option Int
  Sold : Bool
  Customer : String
  Visited : Bool
  Visitor_Seats : Int
  Timestamp : Option String
deriving Repr, DecidableEq

/-- One row of the `menu` table (`Ty` stands for the column `Type`). -/
structure MenuRow where
  Ty : String
  Category : String
  Series : String
  Admit : Int
  Seq : Option Int
  Alloc : Option Int
  Total_Capacity : Option Int
deriving Repr, DecidableEq

/-- `series = str(row.get("Series", "")).strip()` followed by the
`"-" in series` test and `start, end = map(int, series.split("-"))`:
the parse succeeds exactly when the stripped string splits on - into two
parts and both parts are accepted by `int`.  A failing parse raises in the
source and is caught by the surrounding `except`. -/
def parseSeries (s : String) : Option (Nat × Nat) :=
  match splitDash (pyStrip s).data with
  | [a, b] =>
    match pyNat? ⟨a⟩, pyNat? ⟨b⟩ with
    | some x, some y => some (x, y)
    | _, _ => none
  | _ => none

/-- `range(start, end + 1)` as a list of naturals. -/
def natRangeIncl (s e : Nat) : List Nat := (List.range (e + 1 - s)).map (s + ·)

/-- The 4-digit ticket identifiers generated by one menu row: empty when
the Series does not parse (the handler skips the row). -/
def rowTids (m : MenuRow) : List String :=
  match parseSeries m.Series with
  | none => []
  | some (s, e) => (natRangeIncl s e).map padId

/-- `covers m v` holds when the menu row has a valid Series whose inclusive
range contains `v`. -/
def covers (m : MenuRow) (v : Nat) : Bool :=
  match parseSeries m.Series with
  | none => false
  | some (s, e) => decide (s ≤ v) && decide (v ≤ e)

/-- The fresh ticket record synthesized by the Update Database Menu handler
when a generated identifier is not in `existing_map`. -/
def freshTicket (m : MenuRow) (tid : String) : Ticket :=
  { TicketID := tid, Category := m.Category, Ty := m.Ty, Admit := m.Admit,
    Seq := m.Seq, Sold := false, Visited := false, Customer := "",
    Visitor_Seats := 0, Timestamp := none }

/-- `existing_map = {row["TicketID"]: row for _, row in tickets.iterrows()}`:
a Python dict comprehension keeps the last row written for a repeated key,
so lookup returns the last matching record. -/
def lookupLast (ts : List Ticket) (tid : String) : Option Ticket :=
  ts.reverse.find? (fun t => t.TicketID == tid)

/-- The record appended for one generated identifier: the existing record
carried forward unchanged when the identifier is in `existing_map`,
otherwise a fresh record derived from the current menu row. -/
def reconTicket (ts : List Ticket) (m : MenuRow) (tid : String) : Ticket :=
  match lookupLast ts tid with
  | some t => t
  | none => freshTicket m tid

/-- The ticket list built by the Update Database Menu handler: for each
menu row in order, for each identifier of its series in order, append the
reconciled record.  `existing_map` is built once from the pre-update
`tickets`, never from the rows appended during the loop. -/
def reconcile (menu : List MenuRow) (ts : List Ticket) : List Ticket :=
  (menu.map (fun m => (rowTids m).map (reconTicket ts m))).flatten

/-- `recompute_menu_fields` on one row: on a valid Series set
`Alloc = max((end - start) + 1, 0)` and `Total_Capacity = Alloc * Admit`;
otherwise the `except: pass` leaves the row unchanged. -/
def recomputeRow (m : MenuRow) : MenuRow :=
  match parseSeries m.Series with
  | none => m
  | some (s, e) =>
    let count : Int := max ((e : Int) - (s : Int) + 1) 0
    { m with Alloc := some count, Total_Capacity := some (count * m.Admit) }

/-- `recompute_menu_fields`: every row is processed independently. -/
def recompute_menu_fields (menu : List MenuRow) : List MenuRow :=
  menu.map recomputeRow

/-!  ### Bulk sale  -/

/-- The result surfaced by the Process Bulk Sale handler: the updated
ticket list, `success_count`, and `error_tickets`. -/
structure BulkResult where
  tickets : List Ticket
  success : Nat
  failed : List String
deriving Repr, DecidableEq

/-- `id_to_index = {tid: i for i, tid in enumerate(tickets["TicketID"])}`:
for a repeated identifier the dict keeps the last index. -/
def idToIndex : List Ticket → String → Option Nat
  | [], _ => none
  | t :: ts, tid =>
    match idToIndex ts tid with
    | some i => some (i + 1)
    | none => if t.TicketID == tid then some 0 else none

/-- The field update applied to a ticket sold by the bulk handler. -/
def soldUpdate (now cust : String) (t : Ticket) : Ticket :=
  { t with Sold := true, Customer := cust, Timestamp := some now }

/-- The loop body of Process Bulk Sale.  The lookup map `m` is built once
from the initial ticket list; the `Sold` flag is re-read from the evolving
list on every row.  (The inner `none` row-lookup case is unreachable when
`m` comes from the same list, and mirrors the failure branch.) -/
def bulkSellAux (now : String) (m : String → Option Nat) :
    List (String × String) → List Ticket → Nat → List String → BulkResult
  | [], ts, n, errs => ⟨ts, n, errs⟩
  | (rid, rcust) :: rest, ts, n, errs =>
    let tid := zfill 4 rid
    let cust := pyStrip rcust
    match m tid with
    | some idx =>
      match ts[idx]? with
      | some t =>
        if t.Sold then bulkSellAux now m rest ts n (errs ++ [tid])
        else bulkSellAux now m rest (ts.set idx (soldUpdate now cust t)) (n + 1) errs
      | none => bulkSellAux now m rest ts n (errs ++ [tid])
    | none => bulkSellAux now m rest ts n (errs ++ [tid])

/-- The Process Bulk Sale handler on the import rows
`(Ticket_ID, Customer)`. -/
def bulkSell (rows : List (String × String)) (ts : List Ticket) (now : String) : BulkResult :=
  bulkSellAux now (idToIndex ts) rows ts 0 []

/-!  ### Single-ticket state transitions

Each handler computes `idx_list = tickets.index[tickets["TicketID"] == tid]`
and mutates `idx_list[0]`; with an empty `idx_list` it reports an error and
mutates nothing. -/

/-- Update the first record with the given identifier, if any. -/
def updateFirst (tid : String) (f : Ticket → Ticket) : List Ticket → List Ticket
  | [] => []
  | t :: ts => if t.TicketID == tid then f t :: ts else t :: updateFirst tid f ts

/-- Manual sale handler (Confirm Sale). -/
def sell (tid cust now : String) (ts : List Ticket) : List Ticket :=
  updateFirst tid (fun t => { t with Sold := true, Customer := cust, Timestamp := some now }) ts

/-- The field update applied by the Reverse Sale handler. -/
def clearSale (t : Ticket) : Ticket :=
  { t with Sold := false, Customer := "", Visited := false, Visitor_Seats := 0, Timestamp := none }

/-- Reverse Sale handler. -/
def reverseSale (tid : String) (ts : List Ticket) : List Ticket :=
  updateFirst tid clearSale ts

/-- Visitor entry handler (Confirm Entry). -/
def checkIn (tid : String) (count : Int) (now : String) (ts : List Ticket) : List Ticket :=
  updateFirst tid (fun t => { t with Visited := true, Visitor_Seats := count, Timestamp := some now }) ts

/-- The field update applied by the Reverse Entry handler. -/
def clearEntry (t : Ticket) : Ticket :=
  { t with Visited := false, Visitor_Seats := 0, Timestamp := none }

/-- Reverse Entry handler for a non-editable category. -/
def reverseCheckIn (tid : String) (ts : List Ticket) : List Ticket :=
  updateFirst tid clearEntry ts

/-- Update Entry handler for an editable category (FAMILY SILVER/BRONZE):
a seat count of 0 removes the entry, a positive one overwrites it. -/
def adjustCheckIn (tid : String) (newSeats : Int) (now : String) (ts : List Ticket) : List Ticket :=
  if newSeats = 0 then reverseCheckIn tid ts
  else updateFirst tid (fun t => { t with Visited := true, Visitor_Seats := newSeats, Timestamp := some now }) ts

/-- The field update applied by the Reset Database handler. -/
def clearAll (t : Ticket) : Ticket :=
  { t with Sold := false, Visited := false, Customer := "", Visitor_Seats := 0, Timestamp := none }

/-- Reset Database handler: clear the state columns of every ticket. -/
def resetAll (ts : List Ticket) : List Ticket := ts.map clearAll

/-!  ### Dashboard aggregation  -/

/-- One row of the dashboard `summary` dataframe after the derived columns
are added (`Ty` stands for the column `Type`). -/
structure SRow where
  Seq : Option Int
  Ty : String
  Category : String
  Admit : Int
  Total_Tickets : Int
  Tickets_Sold : Int
  Total_Visitors : Int
  Total_Seats : Int
  Seats_sold : Int
  Balance_Tickets : Int
  Balance_Seats : Int
  Balance_Visitors : Int
deriving Repr, DecidableEq

/-- The groupby key `(Seq, Type, Category, Admit)` of a ticket. -/
def keyOf (t : Ticket) : Option Int × String × String × Int :=
  (t.Seq, t.Ty, t.Category, t.Admit)

/-- The aggregated and derived row of one group. -/
def mkGroupRow (ts : List Ticket) (k : Option Int × String × String × Int) : SRow :=
  let g := ts.filter (fun t => decide (keyOf t = k))
  let total : Int := g.length
  let sold : Int := g.countP (·.Sold)
  let visitors : Int := (g.map (·.Visitor_Seats)).sum
  { Seq := k.1, Ty := k.2.1, Category := k.2.2.1, Admit := k.2.2.2,
    Total_Tickets := total, Tickets_Sold := sold, Total_Visitors := visitors,
    Total_Seats := total * k.2.2.2, Seats_sold := sold * k.2.2.2,
    Balance_Tickets := total - sold,
    Balance_Seats := total * k.2.2.2 - sold * k.2.2.2,
    Balance_Visitors := sold * k.2.2.2 - visitors }

/-- `custom_sort` key: `float("inf")` for a null or zero `Seq`, else the
numeric value; `WithTop Int` models the extended line. -/
def seqKey (s : Option Int) : WithTop Int :=
  match s with
  | none => ⊤
  | some v => if v = 0 then ⊤ else (v : WithTop Int)

/-- The comparison realised by `sort_values` on the `custom_sort` key. -/
def srel (a b : SRow) : Prop := seqKey a.Seq ≤ seqKey b.Seq

instance : DecidableRel srel :=
  fun a b => inferInstanceAs (Decidable (seqKey a.Seq ≤ seqKey b.Seq))

instance : IsTotal SRow srel := ⟨fun a b => le_total (seqKey a.Seq) (seqKey b.Seq)⟩

instance : IsTrans SRow srel := ⟨fun _ _ _ h1 h2 => le_trans h1 h2⟩

/-- `custom_sort` on the summary rows: sort by the key (any realisation of
`sort_values` on this key produces a list sorted by `srel`). -/
def custom_sort (l : List SRow) : List SRow := List.insertionSort srel l

/-- The dashboard summary: one aggregated row per distinct groupby key,
passed through `custom_sort`. -/
def summarize (ts : List Ticket) : List SRow :=
  custom_sort (((ts.map keyOf).dedup).map (mkGroupRow ts))

/-- The appended synthetic total row:
`summary.select_dtypes(include="number").sum()` sums every numeric column
(including `Admit`), then `Seq` is overwritten with the label Total and
`Type` and `Category` are blanked. -/
structure TotalsRow where
  Seq : String
  Ty : String
  Category : String
  Admit : Int
  Total_Tickets : Int
  Tickets_Sold : Int
  Total_Visitors : Int
  Total_Seats : Int
  Seats_sold : Int
  Balance_Tickets : Int
  Balance_Seats : Int
  Balance_Visitors : Int
deriving Repr, DecidableEq

/-- The totals row computed from the sorted summary. -/
def totalsRow (s : List SRow) : TotalsRow :=
  { Seq := "Total", Ty := "", Category := "",
    Admit := (s.map (·.Admit)).sum,
    Total_Tickets := (s.map (·.Total_Tickets)).sum,
    Tickets_Sold := (s.map (·.Tickets_Sold)).sum,
    Total_Visitors := (s.map (·.Total_Visitors)).sum,
    Total_Seats := (s.map (·.Total_Seats)).sum,
    Seats_sold := (s.map (·.Seats_sold)).sum,
    Balance_Tickets := (s.map (·.Balance_Tickets)).sum,
    Balance_Seats := (s.map (·.Balance_Seats)).sum,
    Balance_Visitors := (s.map (·.Balance_Visitors)).sum }

/-!  ### Invariants  -/

/-- `0 <= Visitor_Seats <= Admit` for every ticket. -/
def SeatInv (ts : List Ticket) : Prop :=
  ∀ t ∈ ts, 0 ≤ t.Visitor_Seats ∧ t.Visitor_Seats ≤ t.Admit

/-- `Visited` implies `Sold` for every ticket. -/
def VisitInv (ts : List Ticket) : Prop :=
  ∀ t ∈ ts, t.Visited = true → t.Sold = true

instance (ts : List Ticket) : Decidable (SeatInv ts) :=
  List.decidableBAll _ ts

instance (ts : List Ticket) : Decidable (VisitInv ts) :=
  List.decidableBAll _ ts

/-- Pairwise disjointness of the valid Series ranges of a menu. -/
def SeriesDisjoint (menu : List MenuRow) : Prop :=
  List.Pairwise (fun m1 m2 => ∀ v, ¬(covers m1 v = true ∧ covers m2 v = true)) menu

/-!  ### Helper lemmas: updateFirst  -/

lemma updateFirst_forall {P : Ticket → Prop} (tid : String) (f : Ticket → Ticket)
    (ts : List Ticket) (h : ∀ t ∈ ts, P t)
    (hf : ∀ t, ts.find? (fun x => x.TicketID == tid) = some t → P (f t)) :
    ∀ t ∈ updateFirst tid f ts, P t := by
  induction ts with
  | nil => simp [updateFirst]
  | cons a ts ih =>
    cases hp : (a.TicketID == tid) with
    | true =>
      rw [updateFirst, if_pos hp]
      intro t ht
      rcases List.mem_cons.mp ht with rfl | ht
      · exact hf a (List.find?_cons_of_pos _ hp)
      · exact h t (List.mem_cons_of_mem _ ht)
    | false =>
      rw [updateFirst, if_neg (by simp [hp])]
      intro t ht
      rcases List.mem_cons.mp ht with rfl | ht
      · exact h t (List.mem_cons_self _ _)
      · exact ih (fun u hu => h u (List.mem_cons_of_mem _ hu))
          (fun u hu => hf u ((List.find?_cons_of_neg _ (by simp [hp])).trans hu)) t ht

lemma find?_mem_ticket {ts : List Ticket} {p : Ticket → Bool} {t : Ticket}
    (h : ts.find? p = some t) : t ∈ ts :=
  List.mem_of_find?_eq_some h

/-- C3: the invariant `0 <= Visitor_Seats <= Admit` holds for every ticket
after every state-transition operation, given it held before: Sell does not
touch `Visitor_Seats`; ReverseSale, ReverseCheckIn and Reset set it to 0;
CheckIn sets it to a seat count constrained to `[1, Admit]` of the updated
ticket; AdjustCheckIn sets it to a new seat count constrained to
`[0, Admit]`. -/
theorem seatInv_preserved (ts : List Ticket) (h : SeatInv ts) :
    (∀ tid cust now, SeatInv (sell tid cust now ts)) ∧
    (∀ tid, SeatInv (reverseSale tid ts)) ∧
    (∀ tid, SeatInv (reverseCheckIn tid ts)) ∧
    SeatInv (resetAll ts) ∧
    (∀ tid count now, 1 ≤ count →
      (∀ t, ts.find? (fun x => x.TicketID == tid) = some t → count ≤ t.Admit) →
      SeatInv (checkIn tid count now ts)) ∧
    (∀ tid newSeats now, 0 ≤ newSeats →
      (∀ t, ts.find? (fun x => x.TicketID == tid) = some t → newSeats ≤ t.Admit) →
      SeatInv (adjustCheckIn tid newSeats now ts)) := by
  have hAdmit : ∀ t ∈ ts, (0 : Int) ≤ t.Admit :=
    fun t ht => le_trans (h t ht).1 (h t ht).2
  refine ⟨?_, ?_, ?_, ?_, ?_, ?_⟩
  · intro tid cust now
    exact updateFirst_forall tid _ ts h
      (fun t hft => h t (find?_mem_ticket hft))
  · intro tid
    exact updateFirst_forall tid _ ts h
      (fun t hft => ⟨le_refl 0, hAdmit t (find?_mem_ticket hft)⟩)
  · intro tid
    exact updateFirst_forall tid _ ts h
      (fun t hft => ⟨le_refl 0, hAdmit t (find?_mem_ticket hft)⟩)
  · intro t ht
    rcases List.mem_map.mp ht with ⟨u, hu, rfl⟩
    exact ⟨le_refl 0, hAdmit u hu⟩
  · intro tid count now h1 h2
    exact updateFirst_forall tid _ ts h
      (fun t hft => ⟨le_trans (by norm_num) h1, h2 t hft⟩)
  · intro tid newSeats now h0 h2
    rw [adjustCheckIn]
    by_cases hz : newSeats = 0
    · rw [if_pos hz]
      exact updateFirst_forall tid _ ts h
        (fun t hft => ⟨le_refl 0, hAdmit t (find?_mem_ticket hft)⟩)
    · rw [if_neg hz]
      exact updateFirst_forall tid _ ts h (fun t hft => ⟨h0, h2 t hft⟩)

/-- Witness for `seatInv_preserved` at a concrete one-ticket state. -/
theorem seatInv_preserved_witness :
    SeatInv [{ TicketID := "0001", Ty := "Public", Category := "X", Admit := 2,
               Seq := some 1, Sold := true, Customer := "B", Visited := false,
               Visitor_Seats := 0, Timestamp := none }] ∧
    SeatInv (checkIn "0001" 2 "T"
      [{ TicketID := "0001", Ty := "Public", Category := "X", Admit := 2,
         Seq := some 1, Sold := true, Customer := "B", Visited := false,
         Visitor_Seats := 0, Timestamp := none }]) := by
  refine ⟨by decide, ?_⟩
  exact (seatInv_preserved _ (by decide)).2.2.2.2.1 "0001" 2 "T" (by norm_num)
    (fun t hft => by
      have ht : t = { TicketID := "0001", Ty := "Public", Category := "X", Admit := 2,
                      Seq := some 1, Sold := true, Customer := "B", Visited := false,
                      Visitor_Seats := 0, Timestamp := none } := by
        have := hft
        rw [List.find?_cons_of_pos _ (by decide)] at this
        exact (Option.some.inj this).symm
      rw [ht])

/-- C8: `Visited` implies `Sold` is preserved by every state-transition
operation: CheckIn requires its target (the first record with the selected
identifier, drawn from the eligibility filter) to have `Sold = true` and
`Visited = false` before setting `Visited`; ReverseSale clears `Visited`
together with `Sold`; the editable-category seat-count edit (AdjustCheckIn)
requires its target to be `Visited`, which under the invariant already
implies `Sold`, so even that path preserves the invariant. -/
theorem visitInv_preserved (ts : List Ticket) (h : VisitInv ts) :
    (∀ tid cust now, VisitInv (sell tid cust now ts)) ∧
    (∀ tid, VisitInv (reverseSale tid ts)) ∧
    (∀ tid, VisitInv (reverseCheckIn tid ts)) ∧
    VisitInv (resetAll ts) ∧
    (∀ tid count now,
      (∀ t, ts.find? (fun x => x.TicketID == tid) = some t →
        t.Sold = true ∧ t.Visited = false) →
      VisitInv (checkIn tid count now ts)) ∧
    (∀ tid newSeats now,
      (∀ t, ts.find? (fun x => x.TicketID == tid) = some t → t.Visited = true) →
      VisitInv (adjustCheckIn tid newSeats now ts)) := by
  refine ⟨?_, ?_, ?_, ?_, ?_, ?_⟩
  · intro tid cust now
    exact updateFirst_forall tid _ ts h (fun t _ _ => rfl)
  · intro tid
    exact updateFirst_forall tid _ ts h (fun t _ hv => by simp [clearSale] at hv)
  · intro tid
    exact updateFirst_forall tid _ ts h (fun t _ hv => by simp [clearEntry] at hv)
  · intro t ht _
    rcases List.mem_map.mp ht with ⟨u, _, rfl⟩
    simp [clearAll] at *
  · intro tid count now hpre
    exact updateFirst_forall tid _ ts h (fun t hft _ => (hpre t hft).1)
  · intro tid newSeats now hpre
    rw [adjustCheckIn]
    by_cases hz : newSeats = 0
    · rw [if_pos hz]
      exact updateFirst_forall tid _ ts h (fun t _ hv => by simp [clearEntry] at hv)
    · rw [if_neg hz]
      exact updateFirst_forall tid _ ts h
        (fun t hft _ => h t (find?_mem_ticket hft) (hpre t hft))

/-- Witness for `visitInv_preserved` at a concrete one-ticket state. -/
theorem visitInv_preserved_witness :
    VisitInv [{ TicketID := "0001", Ty := "Public", Category := "X", Admit := 2,
                Seq := some 1, Sold := true, Customer := "B", Visited := false,
                Visitor_Seats := 0, Timestamp := none }] ∧
    VisitInv (checkIn "0001" 2 "T"
      [{ TicketID := "0001", Ty := "Public", Category := "X", Admit := 2,
         Seq := some 1, Sold := true, Customer := "B", Visited := false,
         Visitor_Seats := 0, Timestamp := none }]) := by
  refine ⟨by decide, ?_⟩
  exact (visitInv_preserved _ (by decide)).2.2.2.2.1 "0001" 2 "T"
    (fun t hft => by
      rw [List.find?_cons_of_pos _ (by decide)] at hft
      rw [← Option.some.inj hft]
      exact ⟨rfl, rfl⟩)

/-- C5: in the sorted output of the aggregation's custom sort, every group
whose `Seq` is null or 0 appears after every group with a positive numeric
`Seq` (equivalently: once a null/zero-`Seq` group appears, everything after
it is also null/zero), groups with positive `Seq` are ordered ascending by
`Seq`, and the output is a permutation of the input groups. -/
theorem custom_sort_order (l : List SRow) :
    (custom_sort l).Pairwise (fun a b =>
      ((a.Seq = none ∨ a.Seq = some 0) → (b.Seq = none ∨ b.Seq = some 0)) ∧
      (∀ x y, a.Seq = some x → b.Seq = some y → 0 < x → 0 < y → x ≤ y)) ∧
    List.Perm (custom_sort l) l := by
  refine ⟨List.Pairwise.imp ?_ (List.sorted_insertionSort srel l),
    List.perm_insertionSort srel l⟩
  intro a b hab
  constructor
  · intro ha
    have hka : seqKey a.Seq = ⊤ := by
      rcases ha with ha | ha <;> simp [seqKey, ha]
    have hkb : seqKey b.Seq = ⊤ := top_le_iff.mp (hka ▸ hab)
    cases hb : b.Seq with
    | none => exact Or.inl rfl
    | some v =>
      by_cases hv : v = 0
      · exact Or.inr (by rw [hv])
      · rw [hb] at hkb
        simp [seqKey, hv] at hkb
  · intro x y hax hby hx hy
    have hab' : seqKey a.Seq ≤ seqKey b.Seq := hab
    rw [hax, hby] at hab'
    have hx0 : ¬(x = 0) := by omega
    have hy0 : ¬(y = 0) := by omega
    rw [show seqKey (some x) = (x : WithTop Int) by simp [seqKey, hx0],
        show seqKey (some y) = (y : WithTop Int) by simp [seqKey, hy0]] at hab'
    exact_mod_cast hab'

/-- Casting a mapped natural sum to the integers. -/
lemma sum_map_intCast {α : Type} (l : List α) (f : α → Nat) :
    (l.map (fun a => ((f a : Nat) : Int))).sum = (((l.map f).sum : Nat) : Int) := by
  induction l with
  | nil => simp
  | cons a l ih => simp [ih]

/-- C6: aggregation totals reconcile — the per-group `Total_Tickets` values
produced by the dashboard summary sum to the total number of tickets, and
the appended synthetic total row carries that same sum. -/
theorem summary_totals (ts : List Ticket) :
    ((summarize ts).map (fun r => r.Total_Tickets)).sum = (ts.length : Int) ∧
    (totalsRow (summarize ts)).Total_Tickets = (ts.length : Int) := by
  have key : ((((ts.map keyOf).dedup).map (mkGroupRow ts)).map
      (fun r => r.Total_Tickets)).sum = (ts.length : Int) := by
    rw [List.map_map]
    have h1 : ((fun r => r.Total_Tickets) ∘ mkGroupRow ts)
        = fun k => ((@List.count _ instBEqOfDecidableEq k (ts.map keyOf) : Nat) : Int) := by
      funext k
      show ((ts.filter (fun t => decide (keyOf t = k))).length : Int) = _
      rw [← List.countP_eq_length_filter]
      exact congrArg Nat.cast
        (List.countP_map (fun x => decide (x = k)) keyOf ts).symm
    rw [h1, sum_map_intCast, List.sum_map_count_dedup_eq_length, List.length_map]
  have h1 : ((summarize ts).map (fun r => r.Total_Tickets)).sum = (ts.length : Int) := by
    calc ((summarize ts).map (fun r => r.Total_Tickets)).sum
        = ((((ts.map keyOf).dedup).map (mkGroupRow ts)).map
            (fun r => r.Total_Tickets)).sum :=
          List.Perm.sum_eq ((List.perm_insertionSort srel _).map _)
      _ = (ts.length : Int) := key
  exact ⟨h1, h1⟩

/-- C7 counterexample: for the menu entry with `Series = "5-1"` (which
parses with start 5 and end 1) the code sets `Alloc` to
`max((end - start) + 1, 0) = 0`, not to `end - start + 1 = -3` as the
claim states. -/
theorem recompute_alloc_counterexample :
    parseSeries "5-1" = some (5, 1) ∧
    (recompute_menu_fields
      [{ Ty := "Public", Category := "X", Series := "5-1", Admit := 3,
         Seq := none, Alloc := none, Total_Capacity := none }]).map
        (fun m => m.Alloc) = [some 0] ∧
    ((1 : Int) - 5 + 1) ≠ (0 : Int) := by
  refine ⟨by decide, by decide, by decide⟩

/-- C7 (amended): for every menu entry whose Series parses as
`start-end`, recomputation sets `Alloc = max((end - start) + 1, 0)` and
`Total_Capacity = Alloc * Admit`; for every entry whose Series does not
parse, the entry is left unchanged; in both cases every other entry is
still processed (the output keeps one entry per input entry, positionally).
-/
theorem recompute_menu_fields_spec (menu : List MenuRow) :
    (recompute_menu_fields menu).length = menu.length ∧
    (∀ (i : Nat) (m : MenuRow) (s e : Nat),
      menu[i]? = some m → parseSeries m.Series = some (s, e) →
      (recompute_menu_fields menu)[i]? =
        some { m with Alloc := some (max ((e : Int) - (s : Int) + 1) 0),
                      Total_Capacity := some (max ((e : Int) - (s : Int) + 1) 0 * m.Admit) }) ∧
    (∀ (i : Nat) (m : MenuRow), menu[i]? = some m → parseSeries m.Series = none →
      (recompute_menu_fields menu)[i]? = some m) := by
  refine ⟨List.length_map _ _, ?_, ?_⟩
  · intro i m s e hm hp
    rw [recompute_menu_fields, List.getElem?_map, hm]
    simp [recomputeRow, hp]
  · intro i m hm hp
    rw [recompute_menu_fields, List.getElem?_map, hm]
    simp [recomputeRow, hp]

/-- Witness for `recompute_menu_fields_spec` at a concrete menu. -/
theorem recompute_menu_fields_spec_witness :
    (recompute_menu_fields
      [{ Ty := "Public", Category := "X", Series := "2-4", Admit := 3,
         Seq := some 1, Alloc := none, Total_Capacity := none }])[0]? =
      some { Ty := "Public", Category := "X", Series := "2-4", Admit := 3,
             Seq := some 1, Alloc := some (max ((4 : Int) - (2 : Int) + 1) 0),
             Total_Capacity := some (max ((4 : Int) - (2 : Int) + 1) 0 * 3) } :=
  (recompute_menu_fields_spec
    [{ Ty := "Public", Category := "X", Series := "2-4", Admit := 3,
       Seq := some 1, Alloc := none, Total_Capacity := none }]).2.1 0
    _ 2 4 rfl (by decide)

/-!  ### Decimal formatting: `str(n).zfill(4)` is injective  -/

lemma natDigitsAux_append : ∀ (fuel n : Nat) (acc : List Char),
    natDigitsAux fuel n acc = natDigitsAux fuel n [] ++ acc
  | 0, _, _ => by simp [natDigitsAux]
  | fuel + 1, n, acc => by
    by_cases h : n < 10
    · simp [natDigitsAux, h]
    · rw [natDigitsAux, if_neg h, natDigitsAux_append fuel,
        show natDigitsAux (fuel + 1) n [] = natDigitsAux fuel (n / 10)
          [Char.ofNat (48 + n % 10)] by rw [natDigitsAux, if_neg h],
        natDigitsAux_append fuel (n / 10) [Char.ofNat (48 + n % 10)],
        List.append_assoc]
      rfl

lemma charVal_digit (k : Nat) (hk : k < 10) : (Char.ofNat (48 + k)).toNat = 48 + k := by
  interval_cases k <;> decide

lemma natDigitsAux_all_digit : ∀ (fuel n : Nat) (acc : List Char),
    (∀ c ∈ acc, 48 ≤ c.toNat ∧ c.toNat ≤ 57) →
    ∀ c ∈ natDigitsAux fuel n acc, 48 ≤ c.toNat ∧ c.toNat ≤ 57
  | 0, _, _, hacc => by simpa [natDigitsAux] using hacc
  | fuel + 1, n, acc, hacc => by
    have hd : 48 ≤ (Char.ofNat (48 + n % 10)).toNat ∧
        (Char.ofNat (48 + n % 10)).toNat ≤ 57 := by
      rw [charVal_digit _ (Nat.mod_lt n (by norm_num))]
      omega
    by_cases h : n < 10
    · rw [natDigitsAux, if_pos h]
      intro c hc
      rcases List.mem_cons.mp hc with rfl | hc
      · exact hd
      · exact hacc c hc
    · rw [natDigitsAux, if_neg h]
      exact natDigitsAux_all_digit fuel (n / 10) _
        (fun c hc => by
          rcases List.mem_cons.mp hc with rfl | hc
          · exact hd
          · exact hacc c hc)

lemma digitsVal_append (xs ys : List Char) :
    digitsVal (xs ++ ys) = ys.foldl (fun a c => 10 * a + (c.toNat - 48)) (digitsVal xs) := by
  rw [digitsVal, List.foldl_append]
  rfl

lemma natDigitsAux_val : ∀ (fuel n : Nat), n < 10 ^ fuel →
    digitsVal (natDigitsAux fuel n []) = n
  | 0, n, h => by
    have : n = 0 := by simpa using h
    simp [natDigitsAux, digitsVal, this]
  | fuel + 1, n, h => by
    by_cases hn : n < 10
    · rw [natDigitsAux, if_pos hn]
      have := charVal_digit (n % 10) (Nat.mod_lt n (by norm_num))
      simp only [digitsVal, List.foldl_cons, List.foldl_nil, this]
      omega
    · rw [natDigitsAux, if_neg hn,
        natDigitsAux_append fuel (n / 10) [Char.ofNat (48 + n % 10)],
        digitsVal_append,
        natDigitsAux_val fuel (n / 10)
          (by
            rw [pow_succ, mul_comm] at h
            exact Nat.div_lt_of_lt_mul h)]
      have := charVal_digit (n % 10) (Nat.mod_lt n (by norm_num))
      simp only [List.foldl_cons, List.foldl_nil, this]
      omega

lemma natStr_val (n : Nat) : digitsVal (natStr n).data = n := by
  rw [natStr]
  exact natDigitsAux_val (n + 1) n
    (lt_of_lt_of_le (Nat.lt_pow_self (by norm_num) n)
      (Nat.pow_le_pow_right (by norm_num) (Nat.le_succ n)))

lemma natStr_ne_nil (n : Nat) : (natStr n).data ≠ [] := by
  rw [natStr]
  show natDigitsAux (n + 1) n [] ≠ []
  by_cases h : n < 10
  · rw [natDigitsAux, if_pos h]
    exact List.cons_ne_nil _ _
  · rw [natDigitsAux, if_neg h,
      natDigitsAux_append n (n / 10) [Char.ofNat (48 + n % 10)]]
    simp

lemma natStr_all_digit (n : Nat) : ∀ c ∈ (natStr n).data, 48 ≤ c.toNat ∧ c.toNat ≤ 57 := by
  rw [natStr]
  exact natDigitsAux_all_digit (n + 1) n [] (by simp)

lemma digitsVal_replicate_zero : ∀ (k : Nat) (cs : List Char),
    digitsVal (List.replicate k '0' ++ cs) = digitsVal cs
  | 0, cs => by simp
  | k + 1, cs => by
    rw [List.replicate_succ, List.cons_append]
    show List.foldl _ ((fun a c => 10 * a + (c.toNat - 48)) 0 '0') _ = _
    exact digitsVal_replicate_zero k cs

lemma digitsVal_zfillData (cs : List Char) (h1 : cs ≠ [])
    (h2 : ∀ c ∈ cs, 48 ≤ c.toNat ∧ c.toNat ≤ 57) :
    digitsVal (zfillData 4 cs) = digitsVal cs := by
  cases cs with
  | nil => exact absurd rfl h1
  | cons c rest =>
    have hc := h2 c (List.mem_cons_self _ _)
    have hsign : ¬(c = '+' ∨ c = '-') := by
      rintro (rfl | rfl) <;> exact absurd hc (by decide)
    by_cases hl : 4 ≤ (c :: rest).length
    · rw [zfillData.eq_def, if_pos hl]
    · rw [zfillData.eq_def, if_neg hl]
      show digitsVal (if c = '+' ∨ c = '-' then _ else _) = _
      rw [if_neg hsign]
      exact digitsVal_replicate_zero _ _

lemma padId_inj {x y : Nat} (h : padId x = padId y) : x = y := by
  have hd : zfillData 4 (natStr x).data = zfillData 4 (natStr y).data :=
    congrArg String.data h
  have hx := digitsVal_zfillData (natStr x).data (natStr_ne_nil x) (natStr_all_digit x)
  have hy := digitsVal_zfillData (natStr y).data (natStr_ne_nil y) (natStr_all_digit y)
  rw [natStr_val] at hx hy
  rw [← hx, ← hy, hd]

/-!  ### Reconciliation lemmas  -/

lemma mem_natRangeIncl {s e v : Nat} : v ∈ natRangeIncl s e ↔ s ≤ v ∧ v ≤ e := by
  simp only [natRangeIncl, List.mem_map, List.mem_range]
  constructor
  · rintro ⟨k, hk, rfl⟩
    omega
  · rintro ⟨h1, h2⟩
    exact ⟨v - s, by omega, by omega⟩

lemma natRangeIncl_nodup (s e : Nat) : (natRangeIncl s e).Nodup :=
  (List.nodup_range _).map (fun a b h => by omega)

lemma reconTicket_TicketID (ts : List Ticket) (m : MenuRow) (tid : String) :
    (reconTicket ts m tid).TicketID = tid := by
  cases hl : lookupLast ts tid with
  | none => simp [reconTicket, hl, freshTicket]
  | some t =>
    have hl' : ts.reverse.find? (fun t => t.TicketID == tid) = some t := hl
    have hbeq := List.find?_some hl'
    simp only [reconTicket, hl]
    exact eq_of_beq hbeq

lemma mem_rowTids {m : MenuRow} {tid : String} :
    tid ∈ rowTids m ↔ ∃ v, covers m v = true ∧ tid = padId v := by
  cases hp : parseSeries m.Series with
  | none => simp [rowTids, covers, hp]
  | some p =>
    obtain ⟨s, e⟩ := p
    simp only [rowTids, covers, hp, List.mem_map]
    constructor
    · rintro ⟨v, hv, rfl⟩
      obtain ⟨h1, h2⟩ := mem_natRangeIncl.mp hv
      exact ⟨v, by simp [h1, h2], rfl⟩
    · rintro ⟨v, hv, rfl⟩
      simp only [Bool.and_eq_true, decide_eq_true_eq] at hv
      exact ⟨v, mem_natRangeIncl.mpr hv, rfl⟩

lemma rowTids_nodup (m : MenuRow) : (rowTids m).Nodup := by
  cases hp : parseSeries m.Series with
  | none => simp [rowTids, hp]
  | some p =>
    obtain ⟨s, e⟩ := p
    simp only [rowTids, hp]
    exact (natRangeIncl_nodup s e).map (fun a b h => padId_inj h)

lemma countP_rowTids (m : MenuRow) (v : Nat) :
    (rowTids m).countP (fun x => x == padId v) = if covers m v then 1 else 0 := by
  cases hp : parseSeries m.Series with
  | none => simp [rowTids, covers, hp]
  | some p =>
    obtain ⟨s, e⟩ := p
    simp only [rowTids, covers, hp]
    rw [List.countP_map]
    have hcong : ∀ x ∈ natRangeIncl s e,
        ((fun x => x == padId v) ∘ padId) x = (fun x => decide (x = v)) x := by
      intro x _
      show (padId x == padId v) = decide (x = v)
      cases hxv : decide (x = v) with
      | true =>
        rw [of_decide_eq_true hxv]
        exact beq_self_eq_true _
      | false =>
        apply beq_eq_false_iff_ne.mpr
        intro hpad
        exact absurd (padId_inj hpad) (of_decide_eq_false hxv)
    rw [List.countP_congr (fun a ha => by rw [hcong a ha])]
    by_cases hmem : s ≤ v ∧ v ≤ e
    · rw [if_pos (by simp [hmem.1, hmem.2])]
      have : (natRangeIncl s e).countP (fun x => decide (x = v))
          = (natRangeIncl s e).countP (fun x => x == v) := by
        apply List.countP_congr
        intro a _
        simp
      rw [this]
      exact List.count_eq_one_of_mem (natRangeIncl_nodup s e) (mem_natRangeIncl.mpr hmem)
    · rw [if_neg (by simpa using hmem)]
      rw [List.countP_eq_zero]
      intro a ha
      simp only [decide_eq_true_eq]
      rintro rfl
      exact hmem (mem_natRangeIncl.mp ha)

lemma reconcile_map_TicketID (menu : List MenuRow) (ts : List Ticket) :
    (reconcile menu ts).map (fun t => t.TicketID) = (menu.map rowTids).flatten := by
  rw [reconcile, List.map_flatten, List.map_map]
  congr 1
  apply List.map_eq_map_iff.mpr
  intro m _
  show ((rowTids m).map (reconTicket ts m)).map (fun t => t.TicketID) = rowTids m
  rw [List.map_map]
  have : ((fun t => t.TicketID) ∘ reconTicket ts m) = id := by
    funext tid
    exact reconTicket_TicketID ts m tid
  rw [this, List.map_id]

lemma seriesDisjoint_flatten_nodup {menu : List MenuRow} (hd : SeriesDisjoint menu) :
    ((menu.map rowTids).flatten).Nodup := by
  rw [List.nodup_flatten]
  constructor
  · intro l hl
    rcases List.mem_map.mp hl with ⟨m, _, rfl⟩
    exact rowTids_nodup m
  · rw [List.pairwise_map]
    apply hd.imp
    intro m1 m2 h12 tid ht1 ht2
    rcases mem_rowTids.mp ht1 with ⟨v, hv1, rfl⟩
    rcases mem_rowTids.mp ht2 with ⟨w, hw1, hw2⟩
    have : w = v := padId_inj hw2.symm
    exact h12 v ⟨hv1, this ▸ hw1⟩

lemma sum_map_ite_countP {α : Type} (p : α → Bool) (l : List α) :
    (l.map (fun a => if p a then 1 else 0)).sum = l.countP p := by
  induction l with
  | nil => rfl
  | cons a l ih =>
    rw [List.map_cons, List.sum_cons, ih, List.countP_cons]
    cases hp : p a
    · simp [hp]
    · simp [hp]
      omega

lemma find?_eq_some_of_nodup_ids :
    ∀ (l : List Ticket), ((l.map (fun t => t.TicketID)).Nodup) →
      ∀ {t : Ticket} {tid : String}, t ∈ l → t.TicketID = tid →
      l.find? (fun x => x.TicketID == tid) = some t
  | [], _, _, _, ht, _ => absurd ht (List.not_mem_nil _)
  | a :: l, hnd, t, tid, ht, hid => by
    rw [List.map_cons, List.nodup_cons] at hnd
    rcases List.mem_cons.mp ht with rfl | ht
    · exact List.find?_cons_of_pos _ (by simp [hid])
    · have hne : (a.TicketID == tid) = false := by
        apply beq_eq_false_iff_ne.mpr
        intro hcontra
        exact hnd.1 (by
          rw [hcontra, ← hid]
          exact List.mem_map_of_mem (fun x => x.TicketID) ht)
      rw [List.find?_cons_of_neg _ (by simp [hne])]
      exact find?_eq_some_of_nodup_ids l hnd.2 ht hid

lemma lookupLast_eq_of_nodup_ids {l : List Ticket}
    (hnd : (l.map (fun t => t.TicketID)).Nodup) {t : Ticket} {tid : String}
    (ht : t ∈ l) (hid : t.TicketID = tid) : lookupLast l tid = some t := by
  rw [lookupLast]
  apply find?_eq_some_of_nodup_ids
  · rw [List.map_reverse]
    exact List.nodup_reverse.mpr hnd
  · exact List.mem_reverse.mpr ht
  · exact hid

/-- C9: reconcile does not deduplicate ticket identifiers across menu
entries.  When the valid Series ranges are pairwise disjoint every
TicketID appears at most once in the output; in general the output
contains exactly one record per menu row covering a value `v`, so two
overlapping rows produce two records with the same TicketID. -/
theorem reconcile_id_multiplicity (menu : List MenuRow) (ts : List Ticket) :
    (SeriesDisjoint menu → ((reconcile menu ts).map (fun t => t.TicketID)).Nodup) ∧
    (∀ v : Nat, (reconcile menu ts).countP (fun t => t.TicketID == padId v)
      = menu.countP (fun m => covers m v)) := by
  constructor
  · intro hd
    rw [reconcile_map_TicketID]
    exact seriesDisjoint_flatten_nodup hd
  · intro v
    rw [reconcile, List.countP_flatten, List.map_map]
    have hblock : (List.countP (fun t => t.TicketID == padId v) ∘
        (fun m => (rowTids m).map (reconTicket ts m)))
        = fun m => if covers m v then 1 else 0 := by
      funext m
      show ((rowTids m).map (reconTicket ts m)).countP
        (fun t => t.TicketID == padId v) = _
      rw [List.countP_map]
      have hcong : ∀ a ∈ rowTids m,
          ((fun t => t.TicketID == padId v) ∘ reconTicket ts m) a
            = (fun x => x == padId v) a := by
        intro a _
        show ((reconTicket ts m a).TicketID == padId v) = (a == padId v)
        rw [reconTicket_TicketID]
      rw [List.countP_congr (fun a ha => by rw [hcong a ha])]
      exact countP_rowTids m v
    rw [hblock, sum_map_ite_countP]

/-- Witness for `reconcile_id_multiplicity`: a single valid menu row is
trivially pairwise disjoint, and the generated identifiers are distinct. -/
theorem reconcile_id_multiplicity_witness :
    ((reconcile [{ Ty := "Public", Category := "X", Series := "1-2", Admit := 1,
                   Seq := none, Alloc := none, Total_Capacity := none }] []).map
      (fun t => t.TicketID)).Nodup :=
  (reconcile_id_multiplicity _ _).1 (by simp [SeriesDisjoint])

/-- C2: reconcile preserves existing ticket state.  Whenever a generated
identifier of some menu row is present in the existing collection, the
record found there (the last one for that identifier) is carried into the
output entirely unchanged — all ten columns, including Category, Type,
Admit and Seq, keep their old values.  Concretely, a ticket sold to Alice
that is still covered by a Series survives regeneration unchanged. -/
theorem reconcile_preserves_existing :
    (∀ (menu : List MenuRow) (ts : List Ticket) (m : MenuRow) (tid : String) (t : Ticket),
      m ∈ menu → tid ∈ rowTids m → lookupLast ts tid = some t →
      t ∈ reconcile menu ts) ∧
    reconcile
      [{ Ty := "Public", Category := "X", Series := "1-1", Admit := 2,
         Seq := some 1, Alloc := none, Total_Capacity := none }]
      [{ TicketID := "0001", Ty := "Public", Category := "X", Admit := 2,
         Seq := some 1, Sold := true, Customer := "Alice", Visited := false,
         Visitor_Seats := 0, Timestamp := some "2024" }]
      = [{ TicketID := "0001", Ty := "Public", Category := "X", Admit := 2,
           Seq := some 1, Sold := true, Customer := "Alice", Visited := false,
           Visitor_Seats := 0, Timestamp := some "2024" }] := by
  constructor
  · intro menu ts m tid t hm htid hl
    have hrt : reconTicket ts m tid = t := by
      simp only [reconTicket, hl]
    rw [← hrt, reconcile]
    exact List.mem_flatten_of_mem (List.mem_map_of_mem _ hm)
      (List.mem_map_of_mem _ htid)
  · decide

/-- Witness for `reconcile_preserves_existing` at the concrete Alice
state. -/
theorem reconcile_preserves_existing_witness :
    ({ TicketID := "0001", Ty := "Public", Category := "X", Admit := 2,
       Seq := some 1, Sold := true, Customer := "Alice", Visited := false,
       Visitor_Seats := 0, Timestamp := some "2024" } : Ticket) ∈
      reconcile
        [{ Ty := "Public", Category := "X", Series := "1-1", Admit := 2,
           Seq := some 1, Alloc := none, Total_Capacity := none }]
        [{ TicketID := "0001", Ty := "Public", Category := "X", Admit := 2,
           Seq := some 1, Sold := true, Customer := "Alice", Visited := false,
           Visitor_Seats := 0, Timestamp := some "2024" }] :=
  reconcile_preserves_existing.1 _ _
    { Ty := "Public", Category := "X", Series := "1-1", Admit := 2,
      Seq := some 1, Alloc := none, Total_Capacity := none }
    "0001" _ (by decide) (by decide) (by decide)

/-- C4 counterexample: with two menu rows whose Series both cover ticket 1
but whose categories differ, the first run produces two distinct records
for "0001"; the second run looks both occurrences up in `existing_map`,
which kept only the last record, so the output changes.  Reconcile is
therefore not idempotent for every menu. -/
theorem reconcile_not_idempotent :
    reconcile
      [{ Ty := "Public", Category := "X", Series := "1-1", Admit := 1,
         Seq := none, Alloc := none, Total_Capacity := none },
       { Ty := "Public", Category := "Y", Series := "1-1", Admit := 1,
         Seq := none, Alloc := none, Total_Capacity := none }]
      (reconcile
        [{ Ty := "Public", Category := "X", Series := "1-1", Admit := 1,
           Seq := none, Alloc := none, Total_Capacity := none },
         { Ty := "Public", Category := "Y", Series := "1-1", Admit := 1,
           Seq := none, Alloc := none, Total_Capacity := none }] [])
    ≠ reconcile
      [{ Ty := "Public", Category := "X", Series := "1-1", Admit := 1,
         Seq := none, Alloc := none, Total_Capacity := none },
       { Ty := "Public", Category := "Y", Series := "1-1", Admit := 1,
         Seq := none, Alloc := none, Total_Capacity := none }] [] := by
  decide

/-- C4 (amended): reconcile is idempotent for every menu whose valid
Series ranges are pairwise disjoint (in particular whenever the produced
collection has unique TicketIDs): rerunning it with the same menu on its
own output returns that output unchanged. -/
theorem reconcile_idempotent_of_disjoint (menu : List MenuRow) (ts : List Ticket)
    (hd : SeriesDisjoint menu) :
    reconcile menu (reconcile menu ts) = reconcile menu ts := by
  have hnodup : ((reconcile menu ts).map (fun t => t.TicketID)).Nodup := by
    rw [reconcile_map_TicketID]
    exact seriesDisjoint_flatten_nodup hd
  conv_lhs => rw [reconcile]
  conv_rhs => rw [reconcile]
  congr 1
  apply List.map_eq_map_iff.mpr
  intro m hm
  apply List.map_eq_map_iff.mpr
  intro tid htid
  have hmem : reconTicket ts m tid ∈ reconcile menu ts := by
    rw [reconcile]
    exact List.mem_flatten_of_mem (List.mem_map_of_mem _ hm)
      (List.mem_map_of_mem _ htid)
  have hlook : lookupLast (reconcile menu ts) tid = some (reconTicket ts m tid) :=
    lookupLast_eq_of_nodup_ids hnodup hmem (reconTicket_TicketID ts m tid)
  show reconTicket (reconcile menu ts) m tid = reconTicket ts m tid
  simp only [reconTicket, hlook]

/-- Witness for `reconcile_idempotent_of_disjoint` on a concrete one-row
menu. -/
theorem reconcile_idempotent_of_disjoint_witness :
    reconcile [{ Ty := "Public", Category := "X", Series := "1-3", Admit := 2,
                 Seq := some 1, Alloc := none, Total_Capacity := none }]
      (reconcile [{ Ty := "Public", Category := "X", Series := "1-3", Admit := 2,
                    Seq := some 1, Alloc := none, Total_Capacity := none }] [])
    = reconcile [{ Ty := "Public", Category := "X", Series := "1-3", Admit := 2,
                   Seq := some 1, Alloc := none, Total_Capacity := none }] [] :=
  reconcile_idempotent_of_disjoint _ [] (by simp [SeriesDisjoint])


/-!  ### Bulk sale lemmas  -/

lemma getElem?_some_lt {l : List Ticket} {i : Nat} {a : Ticket}
    (h : l[i]? = some a) : i < l.length := by
  by_contra hc
  rw [List.getElem?_eq_none (by omega)] at h
  exact Option.noConfusion h

lemma bulkSellAux_cons (now : String) (m : String → Option Nat)
    (rid rcust : String) (rest : List (String × String))
    (ts : List Ticket) (n : Nat) (errs : List String) :
    bulkSellAux now m ((rid, rcust) :: rest) ts n errs =
      match m (zfill 4 rid) with
      | some idx =>
        match ts[idx]? with
        | some t =>
          if t.Sold then bulkSellAux now m rest ts n (errs ++ [zfill 4 rid])
          else bulkSellAux now m rest (ts.set idx (soldUpdate now (pyStrip rcust) t))
            (n + 1) errs
        | none => bulkSellAux now m rest ts n (errs ++ [zfill 4 rid])
      | none => bulkSellAux now m rest ts n (errs ++ [zfill 4 rid]) := rfl

lemma bulkSellAux_cons_none (now : String) (m : String → Option Nat)
    {rid : String} (rcust : String) (rest : List (String × String))
    (ts : List Ticket) (n : Nat) (errs : List String)
    (h1 : m (zfill 4 rid) = none) :
    bulkSellAux now m ((rid, rcust) :: rest) ts n errs =
      bulkSellAux now m rest ts n (errs ++ [zfill 4 rid]) := by
  rw [bulkSellAux_cons, h1]

lemma bulkSellAux_cons_sold (now : String) (m : String → Option Nat)
    {rid : String} (rcust : String) (rest : List (String × String))
    {ts : List Ticket} (n : Nat) (errs : List String) {idx : Nat} {t : Ticket}
    (h1 : m (zfill 4 rid) = some idx) (h2 : ts[idx]? = some t)
    (h3 : t.Sold = true) :
    bulkSellAux now m ((rid, rcust) :: rest) ts n errs =
      bulkSellAux now m rest ts n (errs ++ [zfill 4 rid]) := by
  rw [bulkSellAux_cons, h1]
  simp only [h2, h3, if_true]

lemma bulkSellAux_cons_unsold (now : String) (m : String → Option Nat)
    {rid : String} (rcust : String) (rest : List (String × String))
    {ts : List Ticket} (n : Nat) (errs : List String) {idx : Nat} {t : Ticket}
    (h1 : m (zfill 4 rid) = some idx) (h2 : ts[idx]? = some t)
    (h3 : t.Sold = false) :
    bulkSellAux now m ((rid, rcust) :: rest) ts n errs =
      bulkSellAux now m rest (ts.set idx (soldUpdate now (pyStrip rcust) t))
        (n + 1) errs := by
  rw [bulkSellAux_cons, h1]
  simp only [h2, h3, if_false, Bool.false_eq_true]

lemma bulkSellAux_cons_oob (now : String) (m : String → Option Nat)
    {rid : String} (rcust : String) (rest : List (String × String))
    {ts : List Ticket} (n : Nat) (errs : List String) {idx : Nat}
    (h1 : m (zfill 4 rid) = some idx) (h2 : ts[idx]? = none) :
    bulkSellAux now m ((rid, rcust) :: rest) ts n errs =
      bulkSellAux now m rest ts n (errs ++ [zfill 4 rid]) := by
  rw [bulkSellAux_cons, h1]
  simp only [h2]

lemma soldUpdate_TicketID (now cust : String) (t : Ticket) :
    (soldUpdate now cust t).TicketID = t.TicketID := rfl

lemma map_TicketID_set : ∀ (ts : List Ticket) (i : Nat) {t t' : Ticket},
    ts[i]? = some t → t'.TicketID = t.TicketID →
    (ts.set i t').map (fun x => x.TicketID) = ts.map (fun x => x.TicketID)
  | [], i, t, t', hget, _ => by
    rw [List.getElem?_eq_none (by simp)] at hget
    exact Option.noConfusion hget
  | a :: ts, 0, t, t', hget, hid => by
    have ha : a = t := by simpa using hget
    subst ha
    simp [hid]
  | a :: ts, i + 1, t, t', hget, hid => by
    simp only [List.set_cons_succ, List.map_cons]
    rw [map_TicketID_set ts i (by simpa using hget) hid]

lemma bulkSellAux_map_TicketID (now : String) (m : String → Option Nat) :
    ∀ (rows : List (String × String)) (ts : List Ticket) (n : Nat) (errs : List String),
    ((bulkSellAux now m rows ts n errs).tickets).map (fun t => t.TicketID)
      = ts.map (fun t => t.TicketID)
  | [], ts, n, errs => rfl
  | (rid, rcust) :: rest, ts, n, errs => by
    rcases hm : m (zfill 4 rid) with _ | idx
    · rw [bulkSellAux_cons_none now m rcust rest ts n errs hm]
      exact bulkSellAux_map_TicketID now m rest ts n _
    · rcases hg : ts[idx]? with _ | t
      · rw [bulkSellAux_cons_oob now m rcust rest n errs hm hg]
        exact bulkSellAux_map_TicketID now m rest ts n _
      · cases hs : t.Sold
        · rw [bulkSellAux_cons_unsold now m rcust rest n errs hm hg hs,
            bulkSellAux_map_TicketID now m rest _ _ _,
            map_TicketID_set ts idx hg (soldUpdate_TicketID now (pyStrip rcust) t)]
        · rw [bulkSellAux_cons_sold now m rcust rest n errs hm hg hs]
          exact bulkSellAux_map_TicketID now m rest ts n _

lemma bulkSellAux_shift (now : String) (m : String → Option Nat) :
    ∀ (rows : List (String × String)) (ts : List Ticket) (n : Nat) (errs : List String),
    bulkSellAux now m rows ts n errs =
      ⟨(bulkSellAux now m rows ts 0 []).tickets,
       n + (bulkSellAux now m rows ts 0 []).success,
       errs ++ (bulkSellAux now m rows ts 0 []).failed⟩
  | [], ts, n, errs => by simp [bulkSellAux]
  | (rid, rcust) :: rest, ts, n, errs => by
    rcases hm : m (zfill 4 rid) with _ | idx
    · rw [bulkSellAux_cons_none now m rcust rest ts n errs hm,
        bulkSellAux_cons_none now m rcust rest ts 0 [] hm,
        bulkSellAux_shift now m rest ts n (errs ++ [zfill 4 rid]),
        bulkSellAux_shift now m rest ts 0 ([] ++ [zfill 4 rid])]
      simp
    · rcases hg : ts[idx]? with _ | t
      · rw [bulkSellAux_cons_oob now m rcust rest n errs hm hg,
          bulkSellAux_cons_oob now m rcust rest 0 [] hm hg,
          bulkSellAux_shift now m rest ts n (errs ++ [zfill 4 rid]),
          bulkSellAux_shift now m rest ts 0 ([] ++ [zfill 4 rid])]
        simp
      · cases hs : t.Sold
        · rw [bulkSellAux_cons_unsold now m rcust rest n errs hm hg hs,
            bulkSellAux_cons_unsold now m rcust rest 0 [] hm hg hs,
            bulkSellAux_shift now m rest _ (n + 1) errs,
            bulkSellAux_shift now m rest _ (0 + 1) []]
          simp
          omega
        · rw [bulkSellAux_cons_sold now m rcust rest n errs hm hg hs,
            bulkSellAux_cons_sold now m rcust rest 0 [] hm hg hs,
            bulkSellAux_shift now m rest ts n (errs ++ [zfill 4 rid]),
            bulkSellAux_shift now m rest ts 0 ([] ++ [zfill 4 rid])]
          simp

lemma bulkSellAux_append (now : String) (m : String → Option Nat) :
    ∀ (rows1 rows2 : List (String × String)) (ts : List Ticket) (n : Nat) (errs : List String),
    bulkSellAux now m (rows1 ++ rows2) ts n errs =
      bulkSellAux now m rows2 (bulkSellAux now m rows1 ts n errs).tickets
        (bulkSellAux now m rows1 ts n errs).success
        (bulkSellAux now m rows1 ts n errs).failed
  | [], rows2, ts, n, errs => rfl
  | (rid, rcust) :: rest, rows2, ts, n, errs => by
    rcases hm : m (zfill 4 rid) with _ | idx
    · rw [List.cons_append, bulkSellAux_cons_none now m rcust (rest ++ rows2) ts n errs hm,
        bulkSellAux_cons_none now m rcust rest ts n errs hm]
      exact bulkSellAux_append now m rest rows2 ts n _
    · rcases hg : ts[idx]? with _ | t
      · rw [List.cons_append, bulkSellAux_cons_oob now m rcust (rest ++ rows2) n errs hm hg,
          bulkSellAux_cons_oob now m rcust rest n errs hm hg]
        exact bulkSellAux_append now m rest rows2 ts n _
      · cases hs : t.Sold
        · rw [List.cons_append, bulkSellAux_cons_unsold now m rcust (rest ++ rows2) n errs hm hg hs,
            bulkSellAux_cons_unsold now m rcust rest n errs hm hg hs]
          exact bulkSellAux_append now m rest rows2 _ _ _
        · rw [List.cons_append, bulkSellAux_cons_sold now m rcust (rest ++ rows2) n errs hm hg hs,
            bulkSellAux_cons_sold now m rcust rest n errs hm hg hs]
          exact bulkSellAux_append now m rest rows2 ts n _

lemma bulkSellAux_success_failed (now : String) (m : String → Option Nat) :
    ∀ (rows : List (String × String)) (ts : List Ticket) (n : Nat) (errs : List String),
    (bulkSellAux now m rows ts n errs).success
      + (bulkSellAux now m rows ts n errs).failed.length
      = n + errs.length + rows.length
  | [], ts, n, errs => by simp [bulkSellAux]
  | (rid, rcust) :: rest, ts, n, errs => by
    rcases hm : m (zfill 4 rid) with _ | idx
    · rw [bulkSellAux_cons_none now m rcust rest ts n errs hm,
        bulkSellAux_success_failed now m rest ts n (errs ++ [zfill 4 rid])]
      simp
      omega
    · rcases hg : ts[idx]? with _ | t
      · rw [bulkSellAux_cons_oob now m rcust rest n errs hm hg,
          bulkSellAux_success_failed now m rest ts n (errs ++ [zfill 4 rid])]
        simp
        omega
      · cases hs : t.Sold
        · rw [bulkSellAux_cons_unsold now m rcust rest n errs hm hg hs,
            bulkSellAux_success_failed now m rest _ (n + 1) errs]
          simp
          omega
        · rw [bulkSellAux_cons_sold now m rcust rest n errs hm hg hs,
            bulkSellAux_success_failed now m rest ts n (errs ++ [zfill 4 rid])]
          simp
          omega

lemma idToIndex_sound : ∀ (ts : List Ticket) (tid : String) (idx : Nat),
    idToIndex ts tid = some idx →
    (ts.map (fun t => t.TicketID))[idx]? = some tid
  | [], tid, idx, h => by simp [idToIndex] at h
  | t :: ts, tid, idx, h => by
    rw [idToIndex] at h
    rcases hrec : idToIndex ts tid with _ | i
    · rw [hrec] at h
      by_cases hb : (t.TicketID == tid) = true
      · rw [if_pos hb] at h
        obtain rfl : (0 : Nat) = idx := Option.some.inj h
        simp [eq_of_beq hb]
      · rw [if_neg hb] at h
        exact Option.noConfusion h
    · rw [hrec] at h
      obtain rfl : i + 1 = idx := Option.some.inj h
      simpa using idToIndex_sound ts tid i hrec

lemma idToIndex_congr : ∀ (ts1 ts2 : List Ticket),
    ts1.map (fun t => t.TicketID) = ts2.map (fun t => t.TicketID) →
    idToIndex ts1 = idToIndex ts2
  | [], [], _ => rfl
  | [], t2 :: ts2, h => by simp at h
  | t1 :: ts1, [], h => by simp at h
  | t1 :: ts1, t2 :: ts2, h => by
    simp only [List.map_cons, List.cons.injEq] at h
    funext tid
    rw [idToIndex, idToIndex, idToIndex_congr ts1 ts2 h.2, h.1]

/-- C1: BulkSell is fault-isolated per row.  A single row is a success
exactly when the padded `Ticket_ID` is in the id map and the ticket it
names is unsold — then that ticket becomes sold to the row's trimmed
customer and the count increments — and a failure (identifier appended to
the failure list, nothing mutated) otherwise; the batch is the sequential
composition of its rows, so no row aborts the later rows and
`success_count + |failed_ids| = |rows|`; and on the specification's
three-row example the result is success 1, failures 9999 and 0002, and
ticket 0001 sold to A. -/
theorem bulkSell_fault_isolation :
    (∀ (rid rcust : String) (ts : List Ticket) (now : String),
      (∀ (idx : Nat) (t : Ticket), idToIndex ts (zfill 4 rid) = some idx →
        ts[idx]? = some t → t.Sold = false →
        bulkSell [(rid, rcust)] ts now =
          ⟨ts.set idx (soldUpdate now (pyStrip rcust) t), 1, []⟩) ∧
      (∀ (idx : Nat) (t : Ticket), idToIndex ts (zfill 4 rid) = some idx →
        ts[idx]? = some t → t.Sold = true →
        bulkSell [(rid, rcust)] ts now = ⟨ts, 0, [zfill 4 rid]⟩) ∧
      (idToIndex ts (zfill 4 rid) = none →
        bulkSell [(rid, rcust)] ts now = ⟨ts, 0, [zfill 4 rid]⟩)) ∧
    (∀ (rows1 rows2 : List (String × String)) (ts : List Ticket) (now : String),
      bulkSell (rows1 ++ rows2) ts now =
        ⟨(bulkSell rows2 (bulkSell rows1 ts now).tickets now).tickets,
         (bulkSell rows1 ts now).success
           + (bulkSell rows2 (bulkSell rows1 ts now).tickets now).success,
         (bulkSell rows1 ts now).failed
           ++ (bulkSell rows2 (bulkSell rows1 ts now).tickets now).failed⟩) ∧
    (∀ (rows : List (String × String)) (ts : List Ticket) (now : String),
      (bulkSell rows ts now).success + (bulkSell rows ts now).failed.length
        = rows.length) ∧
    bulkSell [("0001", "A"), ("9999", "B"), ("0002", "C")]
      [{ TicketID := "0001", Ty := "Public", Category := "X", Admit := 2,
         Seq := some 1, Sold := false, Customer := "", Visited := false,
         Visitor_Seats := 0, Timestamp := none },
       { TicketID := "0002", Ty := "Public", Category := "X", Admit := 2,
         Seq := some 1, Sold := true, Customer := "Z", Visited := false,
         Visitor_Seats := 0, Timestamp := none }] "T"
      = ⟨[{ TicketID := "0001", Ty := "Public", Category := "X", Admit := 2,
            Seq := some 1, Sold := true, Customer := "A", Visited := false,
            Visitor_Seats := 0, Timestamp := some "T" },
          { TicketID := "0002", Ty := "Public", Category := "X", Admit := 2,
            Seq := some 1, Sold := true, Customer := "Z", Visited := false,
            Visitor_Seats := 0, Timestamp := none }], 1, ["9999", "0002"]⟩ := by
  refine ⟨?_, ?_, ?_, by decide⟩
  · intro rid rcust ts now
    refine ⟨?_, ?_, ?_⟩
    · intro idx t h1 h2 h3
      rw [bulkSell, bulkSellAux_cons_unsold now (idToIndex ts) rcust [] 0 [] h1 h2 h3]
      rfl
    · intro idx t h1 h2 h3
      rw [bulkSell, bulkSellAux_cons_sold now (idToIndex ts) rcust [] 0 [] h1 h2 h3]
      rfl
    · intro h1
      rw [bulkSell, bulkSellAux_cons_none now (idToIndex ts) rcust [] ts 0 [] h1]
      rfl
  · intro rows1 rows2 ts now
    have hm : idToIndex (bulkSell rows1 ts now).tickets = idToIndex ts :=
      idToIndex_congr _ _ (bulkSellAux_map_TicketID now (idToIndex ts) rows1 ts 0 [])
    have hsplit : bulkSell (rows1 ++ rows2) ts now
        = bulkSellAux now (idToIndex ts) rows2 (bulkSell rows1 ts now).tickets
            (bulkSell rows1 ts now).success (bulkSell rows1 ts now).failed := by
      rw [bulkSell]
      exact bulkSellAux_append now (idToIndex ts) rows1 rows2 ts 0 []
    have hts1 : bulkSell rows2 (bulkSell rows1 ts now).tickets now
        = bulkSellAux now (idToIndex ts) rows2 (bulkSell rows1 ts now).tickets 0 [] := by
      rw [bulkSell, hm]
    rw [hsplit, hts1,
      bulkSellAux_shift now (idToIndex ts) rows2 (bulkSell rows1 ts now).tickets
        (bulkSell rows1 ts now).success (bulkSell rows1 ts now).failed]
  · intro rows ts now
    rw [bulkSell]
    have := bulkSellAux_success_failed now (idToIndex ts) rows ts 0 []
    simpa using this

/-- Witness for `bulkSell_fault_isolation` on a concrete one-row import. -/
theorem bulkSell_fault_isolation_witness :
    bulkSell [("0001", "A")]
      [{ TicketID := "0001", Ty := "Public", Category := "X", Admit := 2,
         Seq := some 1, Sold := false, Customer := "", Visited := false,
         Visitor_Seats := 0, Timestamp := none }] "T"
      = ⟨[{ TicketID := "0001", Ty := "Public", Category := "X", Admit := 2,
            Seq := some 1, Sold := false, Customer := "", Visited := false,
            Visitor_Seats := 0, Timestamp := none }].set 0
          (soldUpdate "T" (pyStrip "A")
            { TicketID := "0001", Ty := "Public", Category := "X", Admit := 2,
              Seq := some 1, Sold := false, Customer := "", Visited := false,
              Visitor_Seats := 0, Timestamp := none }), 1, []⟩ :=
  (bulkSell_fault_isolation.1 "0001" "A" _ "T").1 0 _ (by decide) (by decide) rfl

lemma bulkSellAux_failed_mono (now : String) (m : String → Option Nat) :
    ∀ (rows : List (String × String)) (ts : List Ticket) (n : Nat)
      (errs : List String) (x : String), x ∈ errs →
      x ∈ (bulkSellAux now m rows ts n errs).failed
  | [], ts, n, errs, x, hx => hx
  | (rid, rcust) :: rest, ts, n, errs, x, hx => by
    rcases hm : m (zfill 4 rid) with _ | idx
    · rw [bulkSellAux_cons_none now m rcust rest ts n errs hm]
      exact bulkSellAux_failed_mono now m rest ts n _ x (List.mem_append_left _ hx)
    · rcases hg : ts[idx]? with _ | t
      · rw [bulkSellAux_cons_oob now m rcust rest n errs hm hg]
        exact bulkSellAux_failed_mono now m rest ts n _ x (List.mem_append_left _ hx)
      · cases hs : t.Sold
        · rw [bulkSellAux_cons_unsold now m rcust rest n errs hm hg hs]
          exact bulkSellAux_failed_mono now m rest _ _ _ x hx
        · rw [bulkSellAux_cons_sold now m rcust rest n errs hm hg hs]
          exact bulkSellAux_failed_mono now m rest ts n _ x (List.mem_append_left _ hx)

lemma map_getElem?_TicketID {s ts0 : List Ticket} {j : Nat}
    (hs : s.map (fun t => t.TicketID) = ts0.map (fun t => t.TicketID))
    {tid : String} (hj : (ts0.map (fun t => t.TicketID))[j]? = some tid) :
    ∃ w, s[j]? = some w ∧ w.TicketID = tid := by
  rw [← hs, List.getElem?_map] at hj
  exact Option.map_eq_some'.mp hj

/-- Once the row at the map's index for an identifier is sold, no later
row of the import modifies that index, and every later row naming the
same identifier lands in the failure list. -/
lemma bulkSellAux_sold_frozen (now : String) (ts0 : List Ticket)
    (tid : String) (idx : Nat) (hidx : idToIndex ts0 tid = some idx) :
    ∀ (rows : List (String × String)) (s : List Ticket) (n : Nat)
      (errs : List String) (u : Ticket),
      s.map (fun t => t.TicketID) = ts0.map (fun t => t.TicketID) →
      s[idx]? = some u → u.Sold = true →
      (bulkSellAux now (idToIndex ts0) rows s n errs).tickets[idx]? = some u ∧
      (∀ r ∈ rows, zfill 4 r.1 = tid →
        tid ∈ (bulkSellAux now (idToIndex ts0) rows s n errs).failed)
  | [], s, n, errs, u, hs, hu, husold =>
    ⟨hu, fun r hr _ => absurd hr (List.not_mem_nil r)⟩
  | (rid, rcust) :: rest, s, n, errs, u, hs, hu, husold => by
    have hidmap := idToIndex_sound ts0 tid idx hidx
    rcases hm : idToIndex ts0 (zfill 4 rid) with _ | j
    · rw [bulkSellAux_cons_none now (idToIndex ts0) rcust rest s n errs hm]
      obtain ⟨ih1, ih2⟩ := bulkSellAux_sold_frozen now ts0 tid idx hidx rest s n
        (errs ++ [zfill 4 rid]) u hs hu husold
      refine ⟨ih1, ?_⟩
      intro r hr hrtid
      rcases List.mem_cons.mp hr with rfl | hr
      · rw [hrtid] at hm
        rw [hm] at hidx
        exact Option.noConfusion hidx
      · exact ih2 r hr hrtid
    · have hjmap := idToIndex_sound ts0 (zfill 4 rid) j hm
      obtain ⟨w, hw, hwid⟩ := map_getElem?_TicketID hs hjmap
      by_cases htid : zfill 4 rid = tid
      · subst htid
        have hj : j = idx := by
          rw [hm] at hidx
          exact Option.some.inj hidx
        subst hj
        have hwu : w = u := by
          rw [hw] at hu
          exact Option.some.inj hu
        subst hwu
        rw [bulkSellAux_cons_sold now (idToIndex ts0) rcust rest n errs hm hw husold]
        obtain ⟨ih1, ih2⟩ := bulkSellAux_sold_frozen now ts0 (zfill 4 rid) j hidx rest s n
          (errs ++ [zfill 4 rid]) w hs hw husold
        refine ⟨ih1, ?_⟩
        intro r hr hrtid
        rcases List.mem_cons.mp hr with rfl | hr
        · exact bulkSellAux_failed_mono now (idToIndex ts0) rest s n _ _
            (List.mem_append_right _ (List.mem_singleton_self _))
        · exact ih2 r hr hrtid
      · have hjne : j ≠ idx := by
          intro hcontra
          subst hcontra
          rw [hjmap] at hidmap
          exact htid (Option.some.inj hidmap)
        have hrowimp : ∀ r ∈ ((rid, rcust) :: rest), zfill 4 r.1 = tid →
            r ∈ rest ∨ False := by
          intro r hr hrtid
          rcases List.mem_cons.mp hr with rfl | hr
          · exact absurd hrtid htid
          · exact Or.inl hr
        cases hsw : w.Sold
        · rw [bulkSellAux_cons_unsold now (idToIndex ts0) rcust rest n errs hm hw hsw]
          have hs' : (s.set j (soldUpdate now (pyStrip rcust) w)).map (fun t => t.TicketID)
              = ts0.map (fun t => t.TicketID) := by
            rw [map_TicketID_set s j hw (soldUpdate_TicketID now (pyStrip rcust) w), hs]
          have hu' : (s.set j (soldUpdate now (pyStrip rcust) w))[idx]? = some u := by
            rw [List.getElem?_set_ne hjne]
            exact hu
          obtain ⟨ih1, ih2⟩ := bulkSellAux_sold_frozen now ts0 tid idx hidx rest _
            (n + 1) errs u hs' hu' husold
          refine ⟨ih1, ?_⟩
          intro r hr hrtid
          rcases hrowimp r hr hrtid with hr' | hF
          · exact ih2 r hr' hrtid
          · exact absurd hF id
        · rw [bulkSellAux_cons_sold now (idToIndex ts0) rcust rest n errs hm hw hsw]
          obtain ⟨ih1, ih2⟩ := bulkSellAux_sold_frozen now ts0 tid idx hidx rest s n
            (errs ++ [zfill 4 rid]) u hs hu husold
          refine ⟨ih1, ?_⟩
          intro r hr hrtid
          rcases hrowimp r hr hrtid with hr' | hF
          · exact ih2 r hr' hrtid
          · exact absurd hF id

/-- Import rows that never name the identifier at `idx` leave the record
at `idx` unchanged. -/
lemma bulkSellAux_untouched (now : String) (ts0 : List Ticket)
    (tid : String) (idx : Nat) (hidx : idToIndex ts0 tid = some idx) :
    ∀ (rows : List (String × String)) (s : List Ticket) (n : Nat)
      (errs : List String),
      s.map (fun t => t.TicketID) = ts0.map (fun t => t.TicketID) →
      (∀ r ∈ rows, zfill 4 r.1 ≠ tid) →
      (bulkSellAux now (idToIndex ts0) rows s n errs).tickets[idx]? = s[idx]?
  | [], s, n, errs, _, _ => rfl
  | (rid, rcust) :: rest, s, n, errs, hs, hrows => by
    have hidmap := idToIndex_sound ts0 tid idx hidx
    have hrest : ∀ r ∈ rest, zfill 4 r.1 ≠ tid :=
      fun r hr => hrows r (List.mem_cons_of_mem _ hr)
    have hhead : zfill 4 rid ≠ tid := hrows (rid, rcust) (List.mem_cons_self _ _)
    rcases hm : idToIndex ts0 (zfill 4 rid) with _ | j
    · rw [bulkSellAux_cons_none now (idToIndex ts0) rcust rest s n errs hm]
      exact bulkSellAux_untouched now ts0 tid idx hidx rest s n _ hs hrest
    · have hjmap := idToIndex_sound ts0 (zfill 4 rid) j hm
      obtain ⟨w, hw, hwid⟩ := map_getElem?_TicketID hs hjmap
      have hjne : j ≠ idx := by
        intro hcontra
        subst hcontra
        rw [hjmap] at hidmap
        exact hhead (Option.some.inj hidmap)
      cases hsw : w.Sold
      · rw [bulkSellAux_cons_unsold now (idToIndex ts0) rcust rest n errs hm hw hsw]
        have hs' : (s.set j (soldUpdate now (pyStrip rcust) w)).map (fun t => t.TicketID)
            = ts0.map (fun t => t.TicketID) := by
          rw [map_TicketID_set s j hw (soldUpdate_TicketID now (pyStrip rcust) w), hs]
        rw [bulkSellAux_untouched now ts0 tid idx hidx rest _ (n + 1) errs hs' hrest]
        exact List.getElem?_set_ne hjne
      · rw [bulkSellAux_cons_sold now (idToIndex ts0) rcust rest n errs hm hw hsw]
        exact bulkSellAux_untouched now ts0 tid idx hidx rest s n _ hs hrest

/-- C10: a repeated `Ticket_ID` inside one import batch is a conflict.
If two rows pad to the same 4-digit identifier, the identifier does not
occur before the first of them, and the ticket it names (at the id map's
index) is initially unsold, then after the batch that ticket is sold with
the FIRST row's trimmed customer, and the identifier appears in the
failure list because the second row re-reads the in-memory `Sold` flag set
by the first. -/
theorem bulkSell_duplicate_conflict
    (xs ys zs : List (String × String)) (rid1 rid2 c1 c2 : String)
    (ts : List Ticket) (now : String) (idx : Nat) (t : Ticket)
    (hpad : zfill 4 rid2 = zfill 4 rid1)
    (hidx : idToIndex ts (zfill 4 rid1) = some idx)
    (hget : ts[idx]? = some t) (hunsold : t.Sold = false)
    (hxs : ∀ r ∈ xs, zfill 4 r.1 ≠ zfill 4 rid1) :
    (bulkSell (xs ++ ((rid1, c1) :: (ys ++ ((rid2, c2) :: zs)))) ts now).tickets[idx]?
      = some (soldUpdate now (pyStrip c1) t) ∧
    zfill 4 rid1 ∈
      (bulkSell (xs ++ ((rid1, c1) :: (ys ++ ((rid2, c2) :: zs)))) ts now).failed := by
  rw [bulkSell, bulkSellAux_append now (idToIndex ts) xs
    ((rid1, c1) :: (ys ++ ((rid2, c2) :: zs))) ts 0 []]
  set R := bulkSellAux now (idToIndex ts) xs ts 0 [] with hR
  have hsmap : R.tickets.map (fun t => t.TicketID) = ts.map (fun t => t.TicketID) := by
    rw [hR]
    exact bulkSellAux_map_TicketID now (idToIndex ts) xs ts 0 []
  have hs1 : R.tickets[idx]? = some t := by
    rw [hR]
    rw [bulkSellAux_untouched now ts (zfill 4 rid1) idx hidx xs ts 0 [] rfl hxs]
    exact hget
  rw [bulkSellAux_cons_unsold now (idToIndex ts) c1 (ys ++ ((rid2, c2) :: zs))
    R.success R.failed hidx hs1 hunsold]
  have hlt : idx < R.tickets.length := getElem?_some_lt hs1
  have hs2map : (R.tickets.set idx (soldUpdate now (pyStrip c1) t)).map (fun t => t.TicketID)
      = ts.map (fun t => t.TicketID) := by
    rw [map_TicketID_set R.tickets idx hs1 (soldUpdate_TicketID now (pyStrip c1) t), hsmap]
  have hs2get : (R.tickets.set idx (soldUpdate now (pyStrip c1) t))[idx]?
      = some (soldUpdate now (pyStrip c1) t) :=
    List.getElem?_set_self hlt
  obtain ⟨h1, h2⟩ := bulkSellAux_sold_frozen now ts (zfill 4 rid1) idx hidx
    (ys ++ ((rid2, c2) :: zs)) (R.tickets.set idx (soldUpdate now (pyStrip c1) t))
    (R.success + 1) R.failed (soldUpdate now (pyStrip c1) t) hs2map hs2get rfl
  exact ⟨h1, h2 (rid2, c2)
    (List.mem_append_right _ (List.mem_cons_self _ _)) hpad⟩

/-- Witness for `bulkSell_duplicate_conflict` on a two-row import naming
the same ticket twice. -/
theorem bulkSell_duplicate_conflict_witness :
    (bulkSell [("0001", "A"), ("0001", "B")]
      [{ TicketID := "0001", Ty := "Public", Category := "X", Admit := 2,
         Seq := some 1, Sold := false, Customer := "", Visited := false,
         Visitor_Seats := 0, Timestamp := none }] "T").tickets[0]?
      = some (soldUpdate "T" (pyStrip "A")
          { TicketID := "0001", Ty := "Public", Category := "X", Admit := 2,
            Seq := some 1, Sold := false, Customer := "", Visited := false,
            Visitor_Seats := 0, Timestamp := none }) ∧
    zfill 4 "0001" ∈
      (bulkSell [("0001", "A"), ("0001", "B")]
        [{ TicketID := "0001", Ty := "Public", Category := "X", Admit := 2,
           Seq := some 1, Sold := false, Customer := "", Visited := false,
           Visitor_Seats := 0, Timestamp := none }] "T").failed :=
  bulkSell_duplicate_conflict [] [] [] "0001" "0001" "A" "B" _ "T" 0 _
    rfl (by decide) (by decide) rfl
    (fun r hr => absurd hr (List.not_mem_nil r))
